import Mathlib

/-!
Verification development for the `parstrun` parametric-study runner.

The Python sources embedded here are:
* `soops/ioutils.py` — option-file save/load, line skipping, HDF key-value store;
* `examples/monty_hall.py` — the studied example program (run info, scoop info,
  output scraping, the simulation in `main`);
* `tests/test_scripts.py` — the concrete study used by the test suite.

The parameter-grid generator, command materializer and run dispatcher live in
`soops/run_parametric.py`, which is not part of the sources; those pieces are
modelled from the specification text and are marked `Modelled from the spec:`
in their doc comments.

Machine-level details are embedded as follows: Python strings become `List Char`
(named `Chars`), Python exceptions become `Except PyErr`, Python dicts become
association lists with in-place overwrite, and `numpy` random draws become an
explicit stream of naturals reduced modulo the requested bound.
-/

namespace Soops

abbrev Chars := List Char

/-- Shorthand turning a string literal into its character list. -/
def cl (s : String) : Chars := s.toList

/-- Python exception kinds that the embedded code can raise. -/
inductive PyErr where
  | stopIteration
  | osError
  | keyError
  | valueError
  | typeError
  | indexError
  | unboundLocal
  deriving DecidableEq, Repr

/-- Python `next(fd)` on an iterator modelled as the list of remaining items. -/
def pyNext {α : Type} (fd : List α) : Except PyErr (α × List α) :=
  match fd with
  | [] => Except.error PyErr.stopIteration
  | x :: xs => Except.ok (x, xs)

/-! ### Substring occurrence on character lists

`leadsL t s` is "`t` is an initial segment of `s`"; `occursIn t s` is the
Python `t in s` substring test. -/

/-- Whether `t` is an initial segment of `s`. -/
def leadsL : Chars → Chars → Bool
  | [], _ => true
  | _ :: _, [] => false
  | a :: t, b :: s => a == b && leadsL t s

/-- Python's substring containment `t in s`. -/
def occursIn (t : Chars) : Chars → Bool
  | [] => leadsL t []
  | c :: s => leadsL t (c :: s) || occursIn t s

/-- Predicate `clash t s`: matching `t` against `s` hits a mismatch while characters of
`s` remain, so `t` cannot start here no matter what follows `s`. -/
def clash : Chars → Chars → Bool
  | [], _ => false
  | _ :: _, [] => false
  | a :: t, b :: s => if a == b then clash t s else true

/-- Every start position inside `lit` clashes with `t`: an occurrence of `t`
can neither lie inside `lit` nor start inside `lit` and continue beyond it. -/
def noHook (t : Chars) : Chars → Bool
  | [] => true
  | c :: s => clash t (c :: s) && noHook t s

/-! ### Python whitespace stripping and splitting -/

/-- Characters removed by Python's `str.strip()`. -/
def pyWs (c : Char) : Bool :=
  c == ' ' || c == '\t' || c == '\n' || c == '\r'

/-- Remove trailing whitespace (`str.rstrip()`). -/
def pyStripR (s : Chars) : Chars :=
  (s.reverse.dropWhile pyWs).reverse

/-- Python `str.strip()`. -/
def pyStrip (s : Chars) : Chars :=
  pyStripR (s.dropWhile pyWs)

/-- Python `str.split(sep)` for a single-character separator: all segments are
kept, including empty ones. -/
def splitOnChar (sep : Char) : Chars → List Chars
  | [] => [[]]
  | c :: s =>
    if c == sep then [] :: splitOnChar sep s
    else
      match splitOnChar sep s with
      | [] => [[c]]
      | l :: ls => (c :: l) :: ls

/-- Python `sep.join(...)` for the `':'` separator. -/
def joinColon : List Chars → Chars
  | [] => []
  | [x] => x
  | x :: xs => x ++ ':' :: joinColon xs

/-- Python `fd.readlines()` of a whole file, with line terminators removed:
split at every newline, and a trailing segment after the last newline only
counts when nonempty. -/
def lineSplit : Chars → List Chars
  | [] => []
  | c :: s =>
    if c == '\n' then [] :: lineSplit s
    else
      match lineSplit s with
      | [] => [[c]]
      | l :: ls => (c :: l) :: ls

/-! ### `ioutils.dec`, `ioutils.skip_lines`, `ioutils.skip_lines_to`

A line of an iterator is either a `bytes` line or a `str` line; `dec` decodes
the former (UTF-8 decoding is modelled as recovering the carried text). -/

/-- A line yielded by a file iterator: raw `bytes` or decoded `str`. -/
inductive Line where
  | b (s : String)
  | s (s : String)
  deriving DecidableEq, Repr

/-- The embedding of `ioutils.dec`: decode a `bytes` value, pass a `str` through. -/
def dec : Line → String
  | Line.b s => s
  | Line.s s => s

/-- The embedding of `ioutils.skip_lines`: advance the iterator `num` times and return the last
line read together with the rest of the iterator.  `StopIteration` from `next`
propagates; with `num = 0` the variable `line` is unbound. -/
def skip_lines : List Line → Nat → Except PyErr (Line × List Line)
  | _, 0 => Except.error PyErr.unboundLocal
  | fd, Nat.succ n =>
    match pyNext fd with
    | Except.error e => Except.error e
    | Except.ok (l, fd') =>
      if n = 0 then Except.ok (l, fd') else skip_lines fd' n

/-- The embedding of `ioutils.skip_lines_to`: advance until a line whose decoded form contains
`key`; return that line (undecoded) and the rest, or `''` at exhaustion. -/
def skip_lines_to (fd : List Line) (key : String) : Line × List Line :=
  match fd with
  | [] => (Line.s (""), [])
  | l :: rest =>
    if occursIn key.toList (dec l).toList then (l, rest)
    else skip_lines_to rest key

/-- The behaviour `skip_lines_to` is claimed to have, written from the claim:
return the first line whose decoded form contains `key` together with the
lines after it, consuming nothing further; return `''` with the iterator
exhausted when no line matches. -/
def skip_lines_toSpec (fd : List Line) (key : String) : Line × List Line :=
  match fd.findIdx? (fun l => occursIn key.toList (dec l).toList) with
  | some i => (fd.getD i (Line.s ("")), fd.drop (i + 1))
  | none => (Line.s (""), [])

/-! ### The HDF key-value store (`put_to_store` / `get_from_store`)

The store file is either openable (an association list of entries) or
unreadable (opening raises `OSError`). -/

/-- A persistent store file as seen through `pandas.HDFStore`. -/
inductive StoreFile (α : Type) where
  | ok (entries : List (String × α))
  | unreadable
  deriving Repr

/-- Opening a store for reading: an unreadable file raises `OSError`. -/
def hdfOpenRead {α : Type} : StoreFile α → Except PyErr (List (String × α))
  | StoreFile.ok es => Except.ok es
  | StoreFile.unreadable => Except.error PyErr.osError

/-- Python `key in store` / `store.get(key)` on the opened entry list. -/
def storeLookup {α : Type} : List (String × α) → String → Option α
  | [], _ => none
  | (k, v) :: es, key => if k = key then some v else storeLookup es key

/-- Pandas `HDFStore.put(key, val)`: replace any existing entry under `key` with the
new value.  Modelled from the spec: the store "overwrites rather than
duplicates" an existing key (pandas itself is an external collaborator). -/
def putEntry {α : Type} (es : List (String × α)) (key : String) (v : α) :
    List (String × α) :=
  es.filter (fun e => e.1 ≠ key) ++ [(key, v)]

/-- The embedding of `ioutils.put_to_store`: open for update (`r+` fails on an unreadable or
absent file) and put the value under the key. -/
def put_to_store {α : Type} (f : StoreFile α) (key : String) (v : α) :
    Except PyErr (StoreFile α) :=
  match f with
  | StoreFile.unreadable => Except.error PyErr.osError
  | StoreFile.ok es => Except.ok (StoreFile.ok (putEntry es key v))

/-- The embedding of `ioutils.get_from_store`: try to open the store for reading; an `OSError`
is caught and the default returned.  Otherwise return the stored value when
the key is present, else the default, closing the store either way.  The
second component records whether `store.close()` ran. -/
def get_from_store {α : Type} (f : StoreFile α) (key : String) (dflt : α) :
    Except PyErr α × Bool :=
  match hdfOpenRead f with
  | Except.error PyErr.osError => (Except.ok dflt, false)
  | Except.error e => (Except.error e, false)
  | Except.ok entries =>
    let out := match storeLookup entries key with
               | some v => v
               | none => dflt
    (Except.ok out, true)

/-- Number of entries stored under `key`. -/
def storeCount {α : Type} (es : List (String × α)) (key : String) : Nat :=
  (es.filter (fun e => e.1 = key)).length

/-! ### `save_options` / `load_options`

Option values live in a small Python-value universe: integers, plain strings,
and the opaque result of a successful `parse_as_dict`. -/

/-- A Python value appearing in an options group. -/
inductive PVal where
  | int (n : Int)
  | str (s : Chars)
  | dict (s : Chars)
  deriving DecidableEq, Repr

/-- Python `str()` on a `PVal`. -/
def pyStr : PVal → Chars
  | PVal.int n => (toString n).toList
  | PVal.str s => s
  | PVal.dict s => s

/-- Decimal digits. -/
def isDigitCh (c : Char) : Bool :=
  '0' ≤ c && c ≤ '9'

/-- Nonempty digits, leading zero only for the literal `0` itself. -/
def isDigitBody : Chars → Bool
  | [] => false
  | [c] => isDigitCh c
  | c :: d => isDigitCh c && c ≠ '0' && d.all isDigitCh

/-- A Python integer literal as accepted by `eval`: an optional minus sign,
then a nonempty digit run with no superfluous leading zero. -/
def isIntLit (s : Chars) : Bool :=
  match s with
  | '-' :: d => isDigitBody d
  | d => isDigitBody d

/-- Numeric value of a digit run. -/
def digitsVal : Chars → Nat
  | [] => 0
  | c :: d => (c.toNat - '0'.toNat) * 10 ^ d.length + digitsVal d

/-- Value of an integer literal. -/
def intLitVal : Chars → Int
  | '-' :: d => -(digitsVal d : Int)
  | d => (digitsVal d : Int)

/-- Python `eval` restricted to the `PVal` universe: integer literals
evaluate to the integer; everything else raises. -/
def pyEval (s : Chars) : Option PVal :=
  if isIntLit s then some (PVal.int (intLitVal s)) else none

/-- Modelled from the spec: `soops.parsing.parse_as_dict` (not under the
sources) parses a "dict-like literal" of `key=value` bindings and fails on
anything else; modelled as succeeding exactly on strings containing `'='`,
with the parse result kept opaque. -/
def parse_as_dict (s : Chars) : Option PVal :=
  if s.contains '=' then some (PVal.dict s) else none

/-- The `try parse_as_dict / except: try eval / except: keep the string`
cascade of `load_options`. -/
def parseVal (sval : Chars) : PVal :=
  match parse_as_dict sval with
  | some d => d
  | none =>
    match pyEval sval with
    | some v => v
    | none => PVal.str sval

/-- The dashed underline written beneath a group name. -/
def dashesOf (name : Chars) : Chars :=
  List.replicate name.length '-'

/-- The text of one `key: value` option line, written by
`fd.write('%s: %s\n' % (key, val))`, without its newline. -/
def rawLine (kv : Chars × PVal) : Chars :=
  kv.1 ++ ':' :: ' ' :: pyStr kv.2

/-- One `key: value` line of an options group, newline included. -/
def optLine (k : Chars) (v : PVal) : Chars :=
  rawLine (k, v) ++ ['\n']

/-- The embedding of `ioutils.save_options` with its default arguments
(`save_command_line=True`, `quote_command_line=False`): the file text written
for the given groups.  `argv` is the ambient `' '.join(sys.argv)` text.
`ordered_iteritems` is modelled as iterating the association list in order
(its definition is not under the sources; the claims are order-insensitive). -/
def save_options (argv : Chars) (groups : List (Chars × List (Chars × PVal))) :
    Chars :=
  cl ("command line\n") ++ (cl ("------------\n\n") ++ (argv ++ '\n' ::
    groups.foldr
      (fun g acc =>
        '\n' :: (g.1 ++ '\n' :: (dashesOf g.1 ++ '\n' :: '\n' ::
          ((g.2.foldr (fun kv acc' => optLine kv.1 kv.2 ++ acc') []) ++ acc))))
      []))

/-- Python dict assignment `options[key] = val`: overwrite in place, append
when absent. -/
def dictSet (m : List (Chars × PVal)) (k : Chars) (v : PVal) :
    List (Chars × PVal) :=
  match m with
  | [] => [(k, v)]
  | (k', v') :: m' => if k' = k then (k, v) :: m' else (k', v') :: dictSet m' k v

/-- Parse one stripped option line: `key = aux[0].strip()`,
`sval = ':'.join(stripped aux[1:])`, then the `parseVal` cascade. -/
def loadLine (l : Chars) : Chars × PVal :=
  let aux := splitOnChar ':' l
  let key := pyStrip (aux.headD [])
  let sval := joinColon ((aux.drop 1).map pyStrip)
  (key, parseVal sval)

/-- The embedding of `ioutils.load_options`: read all lines, drop the first 8, strip each
remaining line and accumulate `key : value` pairs into a dict. -/
def load_options (content : Chars) : List (Chars × PVal) :=
  let raw := ((lineSplit content).drop 8).map pyStrip
  raw.foldl (fun m l => dictSet m (loadLine l).1 (loadLine l).2) []

/-- Python dict lookup on the loaded options. -/
def lookupK (m : List (Chars × PVal)) (k : Chars) : Option PVal :=
  match m with
  | [] => none
  | (k', v) :: m' => if k' = k then some v else lookupK m' k

/-- The key has no leading or trailing whitespace (in particular it is
nonempty), and contains neither `':'` nor a newline. -/
def noLeadWs (k : Chars) : Bool :=
  match k with
  | [] => false
  | c :: _ => !(pyWs c)

/-- No trailing whitespace (and nonempty). -/
def noTrailWs (k : Chars) : Bool :=
  noLeadWs k.reverse

/-- A key surviving the save/load round trip unchanged: nonempty, no
leading/trailing whitespace, no `':'`, no newline. -/
def keyOK (k : Chars) : Bool :=
  noLeadWs k && noTrailWs k && !(k.contains ':') && !(k.contains '\n')

/-- The value `load_options` recovers from a saved value `v`: the saved text
`' ' :: str(v)` with trailing whitespace stripped, split at colons, each
segment stripped and rejoined, then run through the parse cascade. -/
def loadedVal (v : PVal) : PVal :=
  parseVal (joinColon
    ((splitOnChar ':' (pyStripR (' ' :: pyStr v))).map pyStrip))

/-! ### `monty_hall.get_run_info` and the command materializer

The templates below are the literal data of `get_run_info` (braces written as
`\x7b`/`\x7d`).  The materializer itself lives in `soops/run_parametric.py`,
which is not under the sources; following the spec's design note it is
modelled as a builder of base segments interleaved with conditional
fragments. -/

/-- The base command template of `get_run_info`, after its whitespace
normalisation by `' '.join(...split())`. -/
def runCmdText : String :=
  "\x7bpython\x7d \x7bscript_dir\x7d/monty_hall.py --num=\x7b--num\x7d --repeat=\x7b--repeat\x7d \x7boutput_dir\x7d"

/-- The optional-argument fragments of `get_run_info`, in registration
order. -/
def opt_args : List (String × String) :=
  [("--switch", " --switch"),
   ("--host", " --host=\x7b--host\x7d"),
   ("--seed", " --seed=\x7b--seed\x7d"),
   ("--plot-opts", " --plot-opts=\x7b--plot-opts\x7d"),
   ("--no-show", " --no-show"),
   ("--silent", " --silent")]

/-- The `get_run_info` output-directory key. -/
def output_dir_key : String := "output_dir"

/-- The `get_run_info` completion-marker basename. -/
def is_finished_basename : String := "wins.png"

/-- The values a materialized configuration assigns to monty_hall's keys:
presence booleans for the bare flags, optional value strings for the valued
options, and the mandatory substitution strings of the base template. -/
structure MontyCmdConfig where
  python : Chars
  scriptDir : Chars
  outputDir : Chars
  numS : Chars
  repS : Chars
  switch : Bool
  host : Option Chars
  seed : Option Chars
  plotOpts : Option Chars
  noShow : Bool
  silent : Bool

/-- Fragment of the `--switch` flag: dropped entirely when omitted. -/
def fragSwitch (b : Bool) : Chars :=
  if b then cl (" --switch") else []

/-- Fragment of `--host`: dropped when omitted, rendered with the value
substituted when present. -/
def fragHost : Option Chars → Chars
  | none => []
  | some v => cl (" --host=") ++ v

/-- Fragment of `--seed`. -/
def fragSeed : Option Chars → Chars
  | none => []
  | some v => cl (" --seed=") ++ v

/-- Fragment of `--plot-opts`. -/
def fragPlotOpts : Option Chars → Chars
  | none => []
  | some v => cl (" --plot-opts=") ++ v

/-- Fragment of the `--no-show` flag. -/
def fragNoShow (b : Bool) : Chars :=
  if b then cl (" --no-show") else []

/-- Fragment of the `--silent` flag. -/
def fragSilent (b : Bool) : Chars :=
  if b then cl (" --silent") else []

/-- Modelled from the spec: the command materializer of
`soops/run_parametric.py` renders the base template (which references only
`python`, `script_dir`, `--num`, `--repeat` and `output_dir`) and appends
each registered optional fragment, dropping a fragment entirely when its key
resolves to omitted.  The segments interleaved below are exactly the literal
text of `run_cmd` between its placeholders. -/
def materialize (c : MontyCmdConfig) : Chars :=
  c.python ++ (cl (" ") ++ (c.scriptDir ++ (cl ("/monty_hall.py --num=") ++
    (c.numS ++ (cl (" --repeat=") ++ (c.repS ++ (cl (" ") ++ (c.outputDir ++
    (fragSwitch c.switch ++ (fragHost c.host ++ (fragSeed c.seed ++
    (fragPlotOpts c.plotOpts ++
      (fragNoShow c.noShow ++ fragSilent c.silent)))))))))))))

/-- All substituted value strings of a configuration are free of `'-'`, so no
optional token can be forged or split across a junction by a value. -/
def safeCfg (c : MontyCmdConfig) : Bool :=
  (c.python.all (fun ch => !(ch == '-'))) &&
  (c.scriptDir.all (fun ch => !(ch == '-'))) &&
  (c.outputDir.all (fun ch => !(ch == '-'))) &&
  (c.numS.all (fun ch => !(ch == '-'))) &&
  (c.repS.all (fun ch => !(ch == '-'))) &&
  ((c.host.getD []).all (fun ch => !(ch == '-'))) &&
  ((c.seed.getD []).all (fun ch => !(ch == '-'))) &&
  ((c.plotOpts.getD []).all (fun ch => !(ch == '-')))

/-- A concrete materialized configuration used to exercise the materializer:
`--switch` present, `--host` omitted, `--seed=12345`, `--plot-opts` omitted,
`--no-show` present, `--silent` omitted. -/
def sampleCfg : MontyCmdConfig :=
  MontyCmdConfig.mk (cl ("python3")) (cl ("examples")) (cl ("out"))
    (cl ("100")) (cl ("5")) true none (some (cl ("12345"))) none true false

/-! ### The simulation in `monty_hall.main` -/

/-- The `numpy` global random state: an abstract stream of naturals and a
position.  `np.random.randint(0, k)` consumes one stream element reduced
modulo `k`. -/
structure Rng where
  f : Nat → Nat
  i : Nat

/-- One draw of `np.random.randint(0, k)`. -/
def draw (r : Rng) (k : Nat) : Nat × Rng :=
  (r.f r.i % k, Rng.mk r.f (r.i + 1))

/-- The observable outcome of one round of the simulation loop. -/
structure RoundResult where
  win : Bool
  car : Nat
  choice1 : Nat
  host : Nat
  rng : Rng

/-- One round of the inner loop of `monty_hall.main`: draw the car door and
the first choice, let the host open a door (`sorted(set difference)` is the
ascending filter; a singleton Python `set.pop()` returns its element), switch
or stay, and read off the win from `doors`. -/
def simulateRound (hostStrategy : String) (switch : Bool) (r0 : Rng) :
    RoundResult :=
  let (car, r1) := draw r0 3
  let doors := (List.replicate 3 false).set car true
  let (choice1, r2) := draw r1 3
  let canHost := [0, 1, 2].filter (fun d => d != car && d != choice1)
  let (host, r3) :=
    if canHost.length = 2 then
      if hostStrategy = "random" then
        let (j, r') := draw r2 2
        (canHost.getD j 0, r')
      else (canHost.getD 0 0, r2)
    else (canHost.getD 0 0, r2)
  let choice2 :=
    if switch then ([0, 1, 2].filter (fun d => d != choice1 && d != host)).getD 0 0
    else choice1
  let win := doors.getD choice2 false
  RoundResult.mk win car choice1 host r3

/-- The inner `for ii in range(num)` loop: the list of win flags of `n`
rounds, threading the random state. -/
def simRounds (hostStrategy : String) (switch : Bool) :
    Nat → Rng → List Bool × Rng
  | 0, r => ([], r)
  | Nat.succ n, r =>
    let res := simulateRound hostStrategy switch r
    let (h, r') := simRounds hostStrategy switch n res.rng
    (res.win :: h, r')

/-- The argparse options of `monty_hall.main` (argparse `type=int` values are
integers; `--no-show` stores `show=False`). -/
structure MOptions where
  num : Int
  repeats : Int
  switch : Bool
  host : String
  seed : Option Int
  showFig : Bool
  silent : Bool

/-- The kinds of log lines `main` writes to `output_log.txt`: the four header
lines, then per simulation one elapsed line and one win-rate line. -/
inductive LogKind where
  | hnum
  | hrepeat
  | hswitch
  | hhost
  | elapsed
  | winrate
  deriving DecidableEq, Repr

/-- An observable event of `main`, in program order: a log line appended to
`output_log.txt`, a file written in the output directory, or the final
`plt.show()`. -/
inductive Event where
  | log (k : LogKind)
  | writeFile (name : String)
  | showFig
  deriving DecidableEq, Repr

/-- The outer `for ir in range(options.repeat)` loop of `main`: per
simulation, reseed if `--seed` was given (`seedFn` gives the stream that
`np.random.seed` installs), run `num` rounds, then log the elapsed time and
the win rate.  Returns the events in program order. -/
def mainIter (seedFn : Int → Nat → Nat) (o : MOptions) :
    Nat → Rng → List Event × Rng
  | 0, r => ([], r)
  | Nat.succ n, r =>
    let r0 := match o.seed with
              | some s => Rng.mk (seedFn s) 0
              | none => r
    let r1 := (simRounds o.host o.switch o.num.toNat r0).2
    let res := mainIter seedFn o n r1
    (Event.log LogKind.elapsed :: Event.log LogKind.winrate :: res.1, res.2)

/-- All observable events of one execution of `monty_hall.main`, in program
order: write `options.txt`, log the four header lines, run the simulation
loop, save `wins.png`, and finally `plt.show()` unless `--no-show`. -/
def mainEvents (seedFn : Int → Nat → Nat) (o : MOptions) (r : Rng) :
    List Event :=
  Event.writeFile ("options.txt") ::
  Event.log LogKind.hnum :: Event.log LogKind.hrepeat ::
  Event.log LogKind.hswitch :: Event.log LogKind.hhost ::
  ((mainIter seedFn o o.repeats.toNat r).1 ++
    Event.writeFile ("wins.png") ::
    (if o.showFig then [Event.showFig] else []))

/-- The file name carried by a write event. -/
def writeName : Event → Option String
  | Event.writeFile n => some n
  | _ => none

/-- The log kind carried by a log event. -/
def kindOf : Event → Option LogKind
  | Event.log k => some k
  | _ => none

/-- The files `main` writes into its output directory, in write order. -/
def mainFiles (seedFn : Int → Nat → Nat) (o : MOptions) (r : Rng) :
    List String :=
  (mainEvents seedFn o r).filterMap writeName

/-- The log lines among a list of events, in order. -/
def logKinds (evs : List Event) : List LogKind :=
  evs.filterMap kindOf

/-! ### `monty_hall.scrape_output` and `get_scoop_info` -/

/-- Skip `n` items of an iterator (`for ii in range(n): next(fd)`). -/
def skipN {α : Type} : Nat → List α → Except PyErr (List α)
  | 0, fd => Except.ok fd
  | Nat.succ n, fd =>
    match pyNext fd with
    | Except.error e => Except.error e
    | Except.ok (_, fd') => skipN n fd'

/-- The `for ii in range(repeat)` loop of `scrape_output`: per iteration read
one elapsed line and one win-rate line, parse the last token of each with
`float` (`pyfloat` returning `none` is a raised `ValueError`; `line[-1]` of
an empty line is an `IndexError`). -/
def scrapeLoop {F : Type} (pyfloat : String → Option F) :
    Nat → List (List String) → Except PyErr (List F × List F)
  | 0, _ => Except.ok ([], [])
  | Nat.succ n, fd =>
    match pyNext fd with
    | Except.error e => Except.error e
    | Except.ok (line1, fd1) =>
      match line1.getLast? with
      | none => Except.error PyErr.indexError
      | some tok1 =>
        match pyfloat tok1 with
        | none => Except.error PyErr.valueError
        | some e =>
          match pyNext fd1 with
          | Except.error er => Except.error er
          | Except.ok (line2, fd2) =>
            match line2.getLast? with
            | none => Except.error PyErr.indexError
            | some tok2 =>
              match pyfloat tok2 with
              | none => Except.error PyErr.valueError
              | some w =>
                match scrapeLoop pyfloat n fd2 with
                | Except.error er => Except.error er
                | Except.ok (es, ws) => Except.ok (e :: es, w :: ws)

/-- The embedding of `monty_hall.scrape_output`: the file is the list of its lines, each
pre-split into whitespace tokens; `rdata` is the partial record (`None`
default).  Read `rdata['repeat']`, skip the 4 header lines, run the scrape
loop, and return the `elapsed` / `win_rate` arrays. -/
def scrape_output {F : Type} (pyfloat : String → Option F)
    (lines : List (List String)) (rdata : Option (List (String × Int))) :
    Except PyErr (List (String × List F)) :=
  match rdata with
  | none => Except.error PyErr.typeError
  | some rd =>
    match storeLookup rd ("repeat") with
    | none => Except.error PyErr.keyError
    | some r =>
      match skipN 4 lines with
      | Except.error e => Except.error e
      | Except.ok fd =>
        match scrapeLoop pyfloat r.toNat fd with
        | Except.error e => Except.error e
        | Except.ok (es, ws) =>
          Except.ok [("elapsed", es), ("win_rate", ws)]

/-- A simple numeric-token parser standing in for Python `float` on
nonnegative integer tokens. -/
def tokNat (s : String) : Option Nat :=
  if s.toList.all isDigitCh && !(s.toList.isEmpty) then
    some (digitsVal s.toList)
  else none

/-- A sample `output_log.txt`, pre-split into tokens: 4 header lines, then
per simulation an elapsed line and a win-rate line ending in numeric
tokens. -/
def sampleLog : List (List String) :=
  [["h"], ["h"], ["h"], ["h"],
   ["elapsed:", "1"], ["win", "rate:", "2"],
   ["elapsed:", "3"], ["win", "rate:", "4"]]

/-- The two registered scoop parsers, named. -/
inductive ScoopParserId where
  | loadSplitOptions
  | scrapeOutput
  deriving DecidableEq, Repr

/-- The embedding of `monty_hall.get_scoop_info`: the `options.txt` parser is registered
before the `output_log.txt` parser. -/
def get_scoop_info : List (String × ScoopParserId) :=
  [("options.txt", ScoopParserId.loadSplitOptions),
   ("output_log.txt", ScoopParserId.scrapeOutput)]

/-! ### The parameter grid generator and dispatcher (spec-modelled)

`soops/run_parametric.py` is not under the sources; the grid generator and
the marker-writing dispatch are modelled from the spec, instantiated with the
study declared by `tests/test_scripts.py`'s `cmd_run`. -/

/-- A parsed axis value: a concrete scalar, `@defined` (bare flag present)
or `@undefined` (key omitted). -/
inductive AVal where
  | conc (s : String)
  | defined
  | undefined
  deriving DecidableEq, Repr

/-- A parameter axis: a key and its ordered candidate values. -/
structure Axis where
  key : String
  values : List AVal

/-- Whether an axis was named in the `-c` combine directive. -/
def isGrouped (gk : List String) (a : Axis) : Bool :=
  gk.contains a.key

/-- Modelled from the spec: the "super-axis" of all grouped axes — one
positional tuple per index, of length the common grouped length, or a single
empty tuple when no axis is grouped. -/
def superPoints (axes : List Axis) (gk : List String) :
    List (List (String × AVal)) :=
  match axes.filter (isGrouped gk) with
  | [] => [[]]
  | a :: rest =>
    (List.range a.values.length).map
      (fun i => (a :: rest).map
        (fun ax => (ax.key, ax.values.getD i AVal.undefined)))

/-- Modelled from the spec: the cartesian product over free axes in
declaration order. -/
def expandFree : List Axis → List (List (String × AVal))
  | [] => [[]]
  | a :: rest =>
    a.values.flatMap
      (fun v => (expandFree rest).map (fun asn => (a.key, v) :: asn))

/-- Modelled from the spec: the full parameter grid — the super-axis of the
grouped axes crossed with every free axis, each grid point flattening the
grouped tuple back to individual keys. -/
def mkGrid (axes : List Axis) (gk : List String) :
    List (List (String × AVal)) :=
  (superPoints axes gk).flatMap
    (fun g => (expandFree (axes.filter (fun a => !isGrouped gk a))).map
      (fun f => g ++ f))

/-- The axes declared by `tests/test_scripts.py`'s `cmd_run`, in declaration
order. -/
def studyAxes : List Axis :=
  [Axis.mk ("python") [AVal.conc ("python3")],
   Axis.mk ("output_dir") [AVal.conc ("study/%s")],
   Axis.mk ("--num") [AVal.conc ("100"), AVal.conc ("1000")],
   Axis.mk ("--repeat") [AVal.conc ("5")],
   Axis.mk ("--switch") [AVal.undefined, AVal.defined],
   Axis.mk ("--seed") [AVal.undefined, AVal.conc ("12345")],
   Axis.mk ("--silent") [AVal.defined],
   Axis.mk ("--no-show") [AVal.defined]]

/-- The `-c=--switch+--seed` combine directive of `cmd_run`. -/
def studyGroupedKeys : List String := ["--switch", "--seed"]

/-- A decimal digit as a character. -/
def digitCh : Nat → Char
  | 0 => '0'
  | 1 => '1'
  | 2 => '2'
  | 3 => '3'
  | 4 => '4'
  | 5 => '5'
  | 6 => '6'
  | 7 => '7'
  | 8 => '8'
  | _ => '9'

/-- Fuelled digit accumulator for decimal rendering. -/
def natCharsGo : Nat → Nat → Chars → Chars
  | 0, _, acc => acc
  | Nat.succ fuel, n, acc =>
    if n < 10 then digitCh n :: acc
    else natCharsGo fuel (n / 10) (digitCh (n % 10) :: acc)

/-- Decimal rendering of a natural number. -/
def natChars (n : Nat) : Chars :=
  natCharsGo (n + 1) n []

/-- Python `template % i`: substitute the (single) `%s` placeholder. -/
def formatPercentS : Chars → Chars → Chars
  | [], _ => []
  | '%' :: 's' :: rest, sub => sub ++ rest
  | c :: rest, sub => c :: formatPercentS rest sub

/-- Substitute the configuration ordinal into the output-directory
template's `%s` placeholder. -/
def substOrdinal (template : Chars) (i : Nat) : Chars :=
  formatPercentS template (natChars i)

/-- The output directories of the study, one per configuration ordinal
(`output_dir='.../study/%s'`, written relative to the test's root). -/
def studyDirs : List Chars :=
  (List.range (mkGrid studyAxes studyGroupedKeys).length).map
    (substOrdinal (cl ("study/%s")))

/-- The concrete scalar of an assignment value, when there is one. -/
def concOf : Option AVal → Option String
  | some (AVal.conc s) => some s
  | _ => none

/-- The argparse options `monty_hall.main` ends up with for one grid
configuration: omitted keys fall back to the argparse defaults of `main`
(`num=100`, `repeat=5`, `host='random'`, `seed=None`, `show=True`,
`silent=False`). -/
def optsOfConfig (asn : List (String × AVal)) : MOptions :=
  MOptions.mk
    (((concOf (storeLookup asn ("--num"))).bind (fun s => s.toInt?)).getD 100)
    (((concOf (storeLookup asn ("--repeat"))).bind (fun s => s.toInt?)).getD 5)
    (decide (storeLookup asn ("--switch") = some AVal.defined))
    ((concOf (storeLookup asn ("--host"))).getD ("random"))
    ((concOf (storeLookup asn ("--seed"))).bind (fun s => s.toInt?))
    (!(decide (storeLookup asn ("--no-show") = some AVal.defined)))
    (decide (storeLookup asn ("--silent") = some AVal.defined))

/-- Modelled from the spec: a full dispatch of the study — every grid
configuration is launched into its own ordinal-templated output directory
and runs `monty_hall.main` to completion there, producing that run's written
files. -/
def dispatchStudy (seedFn : Int → Nat → Nat) (r : Rng) :
    List (Chars × List String) :=
  (mkGrid studyAxes studyGroupedKeys).enum.map
    (fun p => (substOrdinal (cl ("study/%s")) p.1,
               mainFiles seedFn (optsOfConfig p.2) r))

/-! ## Theorems -/

/-! ### Substring machinery -/

theorem leadsL_self_append (t z : Chars) : leadsL t (t ++ z) = true := by
  induction t with
  | nil => rfl
  | cons c t ih => simp [leadsL, ih]

theorem occursIn_self_append (t z : Chars) : occursIn t (t ++ z) = true := by
  cases t with
  | nil => cases z <;> simp [occursIn, leadsL]
  | cons c t =>
    rw [List.cons_append, occursIn, ← List.cons_append, leadsL_self_append,
        Bool.true_or]

theorem occursIn_cons_of (t : Chars) (c : Char) (s : Chars)
    (h : occursIn t s = true) : occursIn t (c :: s) = true := by
  simp [occursIn, h]

theorem occursIn_append_right (t x y : Chars) (h : occursIn t y = true) :
    occursIn t (x ++ y) = true := by
  induction x with
  | nil => simpa using h
  | cons c x ih => simpa [occursIn] using Or.inr ih

theorem clash_leadsL (t : Chars) :
    ∀ s y, clash t s = true → leadsL t (s ++ y) = false := by
  induction t with
  | nil => intro s y h; simp [clash] at h
  | cons a t ih =>
    intro s y h
    cases s with
    | nil => simp [clash] at h
    | cons b s =>
      rw [clash] at h
      by_cases hab : (a == b) = true
      · rw [if_pos hab] at h
        simp [leadsL, hab, ih s y h]
      · have hab' : (a == b) = false := by
          revert hab; cases (a == b) <;> simp
        simp [leadsL, hab']

theorem noHook_occursIn (t : Chars) :
    ∀ lit y, noHook t lit = true → occursIn t (lit ++ y) = occursIn t y := by
  intro lit
  induction lit with
  | nil => intro y _; rfl
  | cons c lit ih =>
    intro y h
    rw [noHook, Bool.and_eq_true] at h
    rw [List.cons_append, occursIn, ← List.cons_append,
        clash_leadsL t _ y h.1, ih y h.2, Bool.false_or]

/-- Head character is a dash. -/
def headIsDash : Chars → Bool
  | c :: _ => c == '-'
  | [] => false

/-- No character of `v` is a dash. -/
def dashFreeB (v : Chars) : Bool :=
  v.all (fun ch => !(ch == '-'))

theorem occursIn_dashfree (t : Chars) (ht : headIsDash t = true) :
    ∀ v y, dashFreeB v = true → occursIn t (v ++ y) = occursIn t y := by
  cases t with
  | nil => simp [headIsDash] at ht
  | cons c t =>
    rw [headIsDash, beq_iff_eq] at ht
    subst ht
    intro v
    induction v with
    | nil => intro y _; rfl
    | cons b v ih =>
      intro y h
      simp only [dashFreeB, List.all_cons, Bool.and_eq_true] at h
      have hb : ('-' == b) = false := by
        have h1 := h.1
        simp only [Bool.not_eq_true'] at h1
        simp only [beq_eq_false_iff_ne] at h1 ⊢
        exact fun e => h1 e.symm
      rw [List.cons_append, occursIn, leadsL, hb, Bool.false_and,
          Bool.false_or]
      exact ih y h.2

theorem occursIn_condLit (t lit y : Chars) (b : Bool)
    (hn : noHook t lit = true) :
    occursIn t ((if b then lit else []) ++ y) = occursIn t y := by
  cases b with
  | false => rfl
  | true => exact noHook_occursIn t lit y hn

theorem occursIn_optFrag (t lit : Chars) (o : Option Chars) (y : Chars)
    (ht : headIsDash t = true)
    (hv : dashFreeB ((o.getD [])) = true)
    (hn : noHook t lit = true) :
    occursIn t ((match o with | none => [] | some v => lit ++ v) ++ y) =
      occursIn t y := by
  cases o with
  | none => rfl
  | some v =>
    rw [List.append_assoc, noHook_occursIn t lit _ hn,
        occursIn_dashfree t ht v y hv]

theorem occursIn_nil_of_ne (t : Chars) (h : t ≠ []) :
    occursIn t [] = false := by
  cases t with
  | nil => exact absurd rfl h
  | cons c t => rfl

/-! ### Fragment-specific steps -/

theorem fragHost_skip (t : Chars) (o : Option Chars) (y : Chars)
    (ht : headIsDash t = true) (hv : dashFreeB (o.getD []) = true)
    (hn : noHook t (cl (" --host=")) = true) :
    occursIn t (fragHost o ++ y) = occursIn t y := by
  have e : fragHost o = match o with
                        | none => []
                        | some v => cl (" --host=") ++ v := by
    cases o <;> rfl
  rw [e]
  exact occursIn_optFrag t _ o y ht hv hn

theorem fragSeed_skip (t : Chars) (o : Option Chars) (y : Chars)
    (ht : headIsDash t = true) (hv : dashFreeB (o.getD []) = true)
    (hn : noHook t (cl (" --seed=")) = true) :
    occursIn t (fragSeed o ++ y) = occursIn t y := by
  have e : fragSeed o = match o with
                        | none => []
                        | some v => cl (" --seed=") ++ v := by
    cases o <;> rfl
  rw [e]
  exact occursIn_optFrag t _ o y ht hv hn

theorem fragPlotOpts_skip (t : Chars) (o : Option Chars) (y : Chars)
    (ht : headIsDash t = true) (hv : dashFreeB (o.getD []) = true)
    (hn : noHook t (cl (" --plot-opts=")) = true) :
    occursIn t (fragPlotOpts o ++ y) = occursIn t y := by
  have e : fragPlotOpts o = match o with
                            | none => []
                            | some v => cl (" --plot-opts=") ++ v := by
    cases o <;> rfl
  rw [e]
  exact occursIn_optFrag t _ o y ht hv hn

theorem fragSwitch_skip (t : Chars) (b : Bool) (y : Chars)
    (hn : noHook t (cl (" --switch")) = true) :
    occursIn t (fragSwitch b ++ y) = occursIn t y :=
  occursIn_condLit t _ y b hn

theorem fragNoShow_skip (t : Chars) (b : Bool) (y : Chars)
    (hn : noHook t (cl (" --no-show")) = true) :
    occursIn t (fragNoShow b ++ y) = occursIn t y :=
  occursIn_condLit t _ y b hn

theorem fragSilent_skip (t : Chars) (b : Bool) (y : Chars)
    (hn : noHook t (cl (" --silent")) = true) :
    occursIn t (fragSilent b ++ y) = occursIn t y :=
  occursIn_condLit t _ y b hn

theorem fragSwitch_contains (rest : Chars) :
    occursIn (cl ("--switch")) (fragSwitch true ++ rest) = true := by
  change occursIn (cl ("--switch")) (' ' :: (cl ("--switch") ++ rest)) = true
  exact occursIn_cons_of _ _ _ (occursIn_self_append _ _)

theorem fragHost_contains (v rest : Chars) :
    occursIn (cl ("--host")) (fragHost (some v) ++ rest) = true := by
  change occursIn (cl ("--host"))
    (' ' :: (cl ("--host") ++ '=' :: (v ++ rest))) = true
  exact occursIn_cons_of _ _ _ (occursIn_self_append _ _)

theorem fragSeed_contains (v rest : Chars) :
    occursIn (cl ("--seed")) (fragSeed (some v) ++ rest) = true := by
  change occursIn (cl ("--seed"))
    (' ' :: (cl ("--seed") ++ '=' :: (v ++ rest))) = true
  exact occursIn_cons_of _ _ _ (occursIn_self_append _ _)

theorem fragPlotOpts_contains (v rest : Chars) :
    occursIn (cl ("--plot-opts")) (fragPlotOpts (some v) ++ rest) = true := by
  change occursIn (cl ("--plot-opts"))
    (' ' :: (cl ("--plot-opts") ++ '=' :: (v ++ rest))) = true
  exact occursIn_cons_of _ _ _ (occursIn_self_append _ _)

theorem fragNoShow_contains (rest : Chars) :
    occursIn (cl ("--no-show")) (fragNoShow true ++ rest) = true := by
  change occursIn (cl ("--no-show")) (' ' :: (cl ("--no-show") ++ rest)) = true
  exact occursIn_cons_of _ _ _ (occursIn_self_append _ _)

/-! ### Store lemmas -/

theorem storeLookup_skip {α : Type} (xs ys : List (String × α)) (key : String)
    (h : ∀ e ∈ xs, e.1 ≠ key) :
    storeLookup (xs ++ ys) key = storeLookup ys key := by
  induction xs with
  | nil => rfl
  | cons e xs ih =>
    rw [List.cons_append, storeLookup]
    rw [if_neg (h e (List.mem_cons_self e xs))]
    exact ih (fun e' he' => h e' (List.mem_cons_of_mem e he'))

theorem storeLookup_putEntry {α : Type} (es : List (String × α))
    (key : String) (v : α) : storeLookup (putEntry es key v) key = some v := by
  rw [putEntry]
  rw [storeLookup_skip _ _ key]
  · rw [storeLookup, if_pos rfl]
  · intro e he
    have := List.of_mem_filter he
    simpa using this

theorem storeCount_putEntry {α : Type} (es : List (String × α))
    (key : String) (v : α) : storeCount (putEntry es key v) key = 1 := by
  rw [putEntry, storeCount, List.filter_append]
  have h1 : (es.filter (fun e => e.1 ≠ key)).filter
      (fun e => decide (e.1 = key)) = [] := by
    rw [List.filter_eq_nil_iff]
    intro e he
    have := List.of_mem_filter he
    simpa using this
  rw [h1, List.nil_append]
  simp [List.filter]

/-- C3 (counterexample): on an unreadable store file, `get_from_store` does
not fail the harvest — it catches the `OSError` from opening and returns the
supplied default, contradicting the claim that an unreadable store is fatal
with only an absent key yielding the default. -/
theorem c3_unreadable_store_counterexample :
    get_from_store (StoreFile.unreadable : StoreFile Nat) "results" 7 =
      (Except.ok 7, false) := rfl

/-- C3 (amended): if the persistent store file is unreadable, reading from it
during harvest does not fail: `get_from_store` catches the open error and
returns the supplied default, exactly as it does for an absent key, so an
unreadable store is indistinguishable from an empty one to the caller. -/
theorem c3_unreadable_store_returns_default {α : Type} (key : String)
    (dflt : α) :
    get_from_store StoreFile.unreadable key dflt = (Except.ok dflt, false) :=
  rfl

/-- C4: when the store opens successfully but the key is absent,
`get_from_store` returns the supplied default and raises nothing; when the
key is present it returns the stored value; in both cases the store is
closed. -/
theorem c4_get_from_store_default_or_value {α : Type}
    (es : List (String × α)) (key : String) (dflt : α) :
    (storeLookup es key = none →
      get_from_store (StoreFile.ok es) key dflt = (Except.ok dflt, true)) ∧
    (∀ v, storeLookup es key = some v →
      get_from_store (StoreFile.ok es) key dflt = (Except.ok v, true)) := by
  constructor
  · intro h
    simp [get_from_store, hdfOpenRead, h]
  · intro v h
    simp [get_from_store, hdfOpenRead, h]

/-- Witness for C4: a concrete store with entry `("a", 3)`, probed at the
absent key `"b"` and the present key `"a"`. -/
theorem c4_get_from_store_default_or_value_witness :
    (storeLookup ([("a", 3)] : List (String × Nat)) "b" = none ∧
      get_from_store (StoreFile.ok [("a", 3)]) "b" 7 = (Except.ok 7, true)) ∧
    (storeLookup ([("a", 3)] : List (String × Nat)) "a" = some 3 ∧
      get_from_store (StoreFile.ok [("a", 3)]) "a" 7 = (Except.ok 3, true)) := by
  refine ⟨⟨by decide, ?_⟩, ⟨by decide, ?_⟩⟩
  · exact (c4_get_from_store_default_or_value [("a", 3)] "b" 7).1 (by decide)
  · exact (c4_get_from_store_default_or_value [("a", 3)] "a" 7).2 3 (by decide)

/-- C7: two successive `put_to_store` writes to the same key of an existing
store leave exactly one entry under that key, and a subsequent
`get_from_store` returns the second value — last write wins, nothing
duplicated, no stale entry. -/
theorem c7_put_to_store_last_write_wins {α : Type} (es : List (String × α))
    (key : String) (v1 v2 dflt : α) :
    put_to_store (StoreFile.ok es) key v1 =
      Except.ok (StoreFile.ok (putEntry es key v1)) ∧
    put_to_store (StoreFile.ok (putEntry es key v1)) key v2 =
      Except.ok (StoreFile.ok (putEntry (putEntry es key v1) key v2)) ∧
    storeCount (putEntry (putEntry es key v1) key v2) key = 1 ∧
    get_from_store (StoreFile.ok (putEntry (putEntry es key v1) key v2)) key
      dflt = (Except.ok v2, true) := by
  refine ⟨rfl, rfl, storeCount_putEntry _ _ _, ?_⟩
  simp [get_from_store, hdfOpenRead, storeLookup_putEntry]

/-- C2: for every configuration materialized against monty_hall's run info
(values not containing `'-'`, so no option token can be forged by a value),
each optional key that resolves to omitted contributes no text — its token
occurs nowhere in the rendered command, since the base template references
only `python`, `script_dir`, `--num`, `--repeat` and `output_dir` and the
whole registered fragment is dropped; each present optional key's fragment is
rendered and appended, so its token does occur. -/
theorem c2_materialize_omits_absent_tokens (c : MontyCmdConfig)
    (hs : safeCfg c = true) :
    (c.switch = false →
      occursIn (cl ("--switch")) (materialize c) = false) ∧
    (c.switch = true →
      occursIn (cl ("--switch")) (materialize c) = true) ∧
    (c.host = none →
      occursIn (cl ("--host")) (materialize c) = false) ∧
    (∀ v, c.host = some v →
      occursIn (cl ("--host")) (materialize c) = true) ∧
    (c.seed = none →
      occursIn (cl ("--seed")) (materialize c) = false) ∧
    (∀ v, c.seed = some v →
      occursIn (cl ("--seed")) (materialize c) = true) ∧
    (c.plotOpts = none →
      occursIn (cl ("--plot-opts")) (materialize c) = false) ∧
    (∀ v, c.plotOpts = some v →
      occursIn (cl ("--plot-opts")) (materialize c) = true) ∧
    (c.noShow = false →
      occursIn (cl ("--no-show")) (materialize c) = false) ∧
    (c.noShow = true →
      occursIn (cl ("--no-show")) (materialize c) = true) ∧
    (c.silent = false →
      occursIn (cl ("--silent")) (materialize c) = false) ∧
    (c.silent = true →
      occursIn (cl ("--silent")) (materialize c) = true) := by
  have hl := hs
  simp only [safeCfg, Bool.and_eq_true] at hl
  obtain ⟨⟨⟨⟨⟨⟨⟨hpy, hsd⟩, hod⟩, hnum⟩, hrep⟩, hhost⟩, hseed⟩, hplot⟩ := hl
  refine ⟨?_, ?_, ?_, ?_, ?_, ?_, ?_, ?_, ?_, ?_, ?_, ?_⟩
  · intro h
    rw [materialize,
        occursIn_dashfree (cl ("--switch")) (by decide) _ _ hpy,
        noHook_occursIn (cl ("--switch")) (cl (" ")) _ (by decide),
        occursIn_dashfree (cl ("--switch")) (by decide) _ _ hsd,
        noHook_occursIn (cl ("--switch")) (cl ("/monty_hall.py --num=")) _
          (by decide),
        occursIn_dashfree (cl ("--switch")) (by decide) _ _ hnum,
        noHook_occursIn (cl ("--switch")) (cl (" --repeat=")) _ (by decide),
        occursIn_dashfree (cl ("--switch")) (by decide) _ _ hrep,
        noHook_occursIn (cl ("--switch")) (cl (" ")) _ (by decide),
        occursIn_dashfree (cl ("--switch")) (by decide) _ _ hod,
        h, show fragSwitch false = ([] : Chars) from rfl, List.nil_append,
        fragHost_skip (cl ("--switch")) c.host _ (by decide) hhost (by decide),
        fragSeed_skip (cl ("--switch")) c.seed _ (by decide) hseed (by decide),
        fragPlotOpts_skip (cl ("--switch")) c.plotOpts _ (by decide) hplot
          (by decide),
        fragNoShow_skip (cl ("--switch")) c.noShow _ (by decide)]
    cases c.silent <;> decide
  · intro h
    rw [materialize, h]
    apply occursIn_append_right
    apply occursIn_append_right
    apply occursIn_append_right
    apply occursIn_append_right
    apply occursIn_append_right
    apply occursIn_append_right
    apply occursIn_append_right
    apply occursIn_append_right
    apply occursIn_append_right
    exact fragSwitch_contains _
  · intro h
    rw [materialize,
        occursIn_dashfree (cl ("--host")) (by decide) _ _ hpy,
        noHook_occursIn (cl ("--host")) (cl (" ")) _ (by decide),
        occursIn_dashfree (cl ("--host")) (by decide) _ _ hsd,
        noHook_occursIn (cl ("--host")) (cl ("/monty_hall.py --num=")) _
          (by decide),
        occursIn_dashfree (cl ("--host")) (by decide) _ _ hnum,
        noHook_occursIn (cl ("--host")) (cl (" --repeat=")) _ (by decide),
        occursIn_dashfree (cl ("--host")) (by decide) _ _ hrep,
        noHook_occursIn (cl ("--host")) (cl (" ")) _ (by decide),
        occursIn_dashfree (cl ("--host")) (by decide) _ _ hod,
        fragSwitch_skip (cl ("--host")) c.switch _ (by decide),
        h, show fragHost none = ([] : Chars) from rfl, List.nil_append,
        fragSeed_skip (cl ("--host")) c.seed _ (by decide) hseed (by decide),
        fragPlotOpts_skip (cl ("--host")) c.plotOpts _ (by decide) hplot
          (by decide),
        fragNoShow_skip (cl ("--host")) c.noShow _ (by decide)]
    cases c.silent <;> decide
  · intro v h
    rw [materialize, h]
    apply occursIn_append_right
    apply occursIn_append_right
    apply occursIn_append_right
    apply occursIn_append_right
    apply occursIn_append_right
    apply occursIn_append_right
    apply occursIn_append_right
    apply occursIn_append_right
    apply occursIn_append_right
    apply occursIn_append_right
    exact fragHost_contains _ _
  · intro h
    rw [materialize,
        occursIn_dashfree (cl ("--seed")) (by decide) _ _ hpy,
        noHook_occursIn (cl ("--seed")) (cl (" ")) _ (by decide),
        occursIn_dashfree (cl ("--seed")) (by decide) _ _ hsd,
        noHook_occursIn (cl ("--seed")) (cl ("/monty_hall.py --num=")) _
          (by decide),
        occursIn_dashfree (cl ("--seed")) (by decide) _ _ hnum,
        noHook_occursIn (cl ("--seed")) (cl (" --repeat=")) _ (by decide),
        occursIn_dashfree (cl ("--seed")) (by decide) _ _ hrep,
        noHook_occursIn (cl ("--seed")) (cl (" ")) _ (by decide),
        occursIn_dashfree (cl ("--seed")) (by decide) _ _ hod,
        fragSwitch_skip (cl ("--seed")) c.switch _ (by decide),
        fragHost_skip (cl ("--seed")) c.host _ (by decide) hhost (by decide),
        h, show fragSeed none = ([] : Chars) from rfl, List.nil_append,
        fragPlotOpts_skip (cl ("--seed")) c.plotOpts _ (by decide) hplot
          (by decide),
        fragNoShow_skip (cl ("--seed")) c.noShow _ (by decide)]
    cases c.silent <;> decide
  · intro v h
    rw [materialize, h]
    apply occursIn_append_right
    apply occursIn_append_right
    apply occursIn_append_right
    apply occursIn_append_right
    apply occursIn_append_right
    apply occursIn_append_right
    apply occursIn_append_right
    apply occursIn_append_right
    apply occursIn_append_right
    apply occursIn_append_right
    apply occursIn_append_right
    exact fragSeed_contains _ _
  · intro h
    rw [materialize,
        occursIn_dashfree (cl ("--plot-opts")) (by decide) _ _ hpy,
        noHook_occursIn (cl ("--plot-opts")) (cl (" ")) _ (by decide),
        occursIn_dashfree (cl ("--plot-opts")) (by decide) _ _ hsd,
        noHook_occursIn (cl ("--plot-opts")) (cl ("/monty_hall.py --num=")) _
          (by decide),
        occursIn_dashfree (cl ("--plot-opts")) (by decide) _ _ hnum,
        noHook_occursIn (cl ("--plot-opts")) (cl (" --repeat=")) _
          (by decide),
        occursIn_dashfree (cl ("--plot-opts")) (by decide) _ _ hrep,
        noHook_occursIn (cl ("--plot-opts")) (cl (" ")) _ (by decide),
        occursIn_dashfree (cl ("--plot-opts")) (by decide) _ _ hod,
        fragSwitch_skip (cl ("--plot-opts")) c.switch _ (by decide),
        fragHost_skip (cl ("--plot-opts")) c.host _ (by decide) hhost
          (by decide),
        fragSeed_skip (cl ("--plot-opts")) c.seed _ (by decide) hseed
          (by decide),
        h, show fragPlotOpts none = ([] : Chars) from rfl, List.nil_append,
        fragNoShow_skip (cl ("--plot-opts")) c.noShow _ (by decide)]
    cases c.silent <;> decide
  · intro v h
    rw [materialize, h]
    apply occursIn_append_right
    apply occursIn_append_right
    apply occursIn_append_right
    apply occursIn_append_right
    apply occursIn_append_right
    apply occursIn_append_right
    apply occursIn_append_right
    apply occursIn_append_right
    apply occursIn_append_right
    apply occursIn_append_right
    apply occursIn_append_right
    apply occursIn_append_right
    exact fragPlotOpts_contains _ _
  · intro h
    rw [materialize,
        occursIn_dashfree (cl ("--no-show")) (by decide) _ _ hpy,
        noHook_occursIn (cl ("--no-show")) (cl (" ")) _ (by decide),
        occursIn_dashfree (cl ("--no-show")) (by decide) _ _ hsd,
        noHook_occursIn (cl ("--no-show")) (cl ("/monty_hall.py --num=")) _
          (by decide),
        occursIn_dashfree (cl ("--no-show")) (by decide) _ _ hnum,
        noHook_occursIn (cl ("--no-show")) (cl (" --repeat=")) _ (by decide),
        occursIn_dashfree (cl ("--no-show")) (by decide) _ _ hrep,
        noHook_occursIn (cl ("--no-show")) (cl (" ")) _ (by decide),
        occursIn_dashfree (cl ("--no-show")) (by decide) _ _ hod,
        fragSwitch_skip (cl ("--no-show")) c.switch _ (by decide),
        fragHost_skip (cl ("--no-show")) c.host _ (by decide) hhost
          (by decide),
        fragSeed_skip (cl ("--no-show")) c.seed _ (by decide) hseed
          (by decide),
        fragPlotOpts_skip (cl ("--no-show")) c.plotOpts _ (by decide) hplot
          (by decide),
        h, show fragNoShow false = ([] : Chars) from rfl, List.nil_append]
    cases c.silent <;> decide
  · intro h
    rw [materialize, h]
    apply occursIn_append_right
    apply occursIn_append_right
    apply occursIn_append_right
    apply occursIn_append_right
    apply occursIn_append_right
    apply occursIn_append_right
    apply occursIn_append_right
    apply occursIn_append_right
    apply occursIn_append_right
    apply occursIn_append_right
    apply occursIn_append_right
    apply occursIn_append_right
    apply occursIn_append_right
    exact fragNoShow_contains _
  · intro h
    rw [materialize,
        occursIn_dashfree (cl ("--silent")) (by decide) _ _ hpy,
        noHook_occursIn (cl ("--silent")) (cl (" ")) _ (by decide),
        occursIn_dashfree (cl ("--silent")) (by decide) _ _ hsd,
        noHook_occursIn (cl ("--silent")) (cl ("/monty_hall.py --num=")) _
          (by decide),
        occursIn_dashfree (cl ("--silent")) (by decide) _ _ hnum,
        noHook_occursIn (cl ("--silent")) (cl (" --repeat=")) _ (by decide),
        occursIn_dashfree (cl ("--silent")) (by decide) _ _ hrep,
        noHook_occursIn (cl ("--silent")) (cl (" ")) _ (by decide),
        occursIn_dashfree (cl ("--silent")) (by decide) _ _ hod,
        fragSwitch_skip (cl ("--silent")) c.switch _ (by decide),
        fragHost_skip (cl ("--silent")) c.host _ (by decide) hhost
          (by decide),
        fragSeed_skip (cl ("--silent")) c.seed _ (by decide) hseed
          (by decide),
        fragPlotOpts_skip (cl ("--silent")) c.plotOpts _ (by decide) hplot
          (by decide),
        fragNoShow_skip (cl ("--silent")) c.noShow _ (by decide),
        h]
    decide
  · intro h
    rw [materialize, h]
    apply occursIn_append_right
    apply occursIn_append_right
    apply occursIn_append_right
    apply occursIn_append_right
    apply occursIn_append_right
    apply occursIn_append_right
    apply occursIn_append_right
    apply occursIn_append_right
    apply occursIn_append_right
    apply occursIn_append_right
    apply occursIn_append_right
    apply occursIn_append_right
    apply occursIn_append_right
    apply occursIn_append_right
    decide

/-- Witness for C2: the sample configuration has `--switch` and `--no-show`
present and `--host`, `--plot-opts`, `--silent` omitted, with `--seed=12345`
present. -/
theorem c2_materialize_omits_absent_tokens_witness :
    safeCfg sampleCfg = true ∧
    occursIn (cl ("--switch")) (materialize sampleCfg) = true ∧
    occursIn (cl ("--host")) (materialize sampleCfg) = false ∧
    occursIn (cl ("--seed")) (materialize sampleCfg) = true ∧
    occursIn (cl ("--plot-opts")) (materialize sampleCfg) = false ∧
    occursIn (cl ("--no-show")) (materialize sampleCfg) = true ∧
    occursIn (cl ("--silent")) (materialize sampleCfg) = false := by
  have h := c2_materialize_omits_absent_tokens sampleCfg (by decide)
  exact ⟨by decide, h.2.1 rfl, h.2.2.1 rfl,
    h.2.2.2.2.2.1 (cl ("12345")) rfl, h.2.2.2.2.2.2.1 rfl,
    h.2.2.2.2.2.2.2.2.2.1 rfl, h.2.2.2.2.2.2.2.2.2.2.1 rfl⟩

/-- C9: `skip_lines_to` is total on a finite iterator and never propagates
`StopIteration`: it returns the first line whose decoded text contains the
key, consuming exactly through that line, and returns `''` with the iterator
exhausted when no line matches; `skip_lines`, in contrast, propagates
`StopIteration` whenever fewer than `num` lines remain. -/
theorem c9_skip_lines_to_never_raises (fd : List Line) (key : String)
    (num : Nat) :
    skip_lines_to fd key = skip_lines_toSpec fd key ∧
    (fd.length < num →
      skip_lines fd num = Except.error PyErr.stopIteration) := by
  constructor
  · induction fd with
    | nil => rfl
    | cons l rest ih =>
      rw [skip_lines_to, skip_lines_toSpec, List.findIdx?_cons]
      by_cases h : occursIn key.toList (dec l).toList = true
      · rw [if_pos h, if_pos h]
        simp
      · rw [if_neg (by simpa using h), if_neg (by simpa using h)]
        rw [ih, skip_lines_toSpec, List.findIdx?_succ]
        cases hf : rest.findIdx?
            (fun l' => occursIn key.toList (dec l').toList) with
        | none => simp [hf]
        | some i => simp [hf]
  · induction num generalizing fd with
    | zero => intro h; exact absurd h (Nat.not_lt_zero _)
    | succ n ih =>
      intro h
      cases fd with
      | nil => rfl
      | cons l rest =>
        rw [skip_lines, pyNext]
        have hr : rest.length < n := by
          simpa [List.length_cons, Nat.succ_lt_succ_iff] using h
        have hn : n ≠ 0 := by
          intro e; rw [e] at hr; exact Nat.not_lt_zero _ hr
        change (if n = 0 then Except.ok (l, rest) else skip_lines rest n) = _
        rw [if_neg hn]
        exact ih rest hr

/-- Witness for C9: a concrete three-line iterator with a `bytes` line, a
matching line, and a line after it, plus a four-line skip overrunning it. -/
theorem c9_skip_lines_to_never_raises_witness :
    skip_lines_to [Line.b ("foo"), Line.s ("bar key baz"), Line.s ("after")]
        "key" =
      skip_lines_toSpec [Line.b ("foo"), Line.s ("bar key baz"), Line.s ("after")]
        "key" ∧
    ([Line.b ("foo"), Line.s ("bar key baz"), Line.s ("after")].length < 4 ∧
      skip_lines [Line.b ("foo"), Line.s ("bar key baz"), Line.s ("after")] 4 =
        Except.error PyErr.stopIteration) := by
  refine ⟨(c9_skip_lines_to_never_raises _ _ 4).1, by decide, ?_⟩
  exact (c9_skip_lines_to_never_raises
    [Line.b ("foo"), Line.s ("bar key baz"), Line.s ("after")] "key" 4).2
    (by decide)

/-! ### The Monty Hall round -/

/-- C8: in every round, for all outcomes of the random draws, the door the
host opens differs from both the car door and the contestant's first choice;
with `--switch` the round is won exactly when the first choice is not the car
door, and without it exactly when the first choice is the car door. -/
theorem c8_host_opens_distinct_door (hostStrategy : String) (switch : Bool)
    (r : Rng) :
    (simulateRound hostStrategy switch r).host ≠
      (simulateRound hostStrategy switch r).car ∧
    (simulateRound hostStrategy switch r).host ≠
      (simulateRound hostStrategy switch r).choice1 ∧
    (switch = true →
      ((simulateRound hostStrategy switch r).win = true ↔
        (simulateRound hostStrategy switch r).choice1 ≠
          (simulateRound hostStrategy switch r).car)) ∧
    (switch = false →
      ((simulateRound hostStrategy switch r).win = true ↔
        (simulateRound hostStrategy switch r).choice1 =
          (simulateRound hostStrategy switch r).car)) := by
  simp only [simulateRound, draw]
  have ha : r.f r.i % 3 < 3 := Nat.mod_lt _ (by norm_num)
  have hb : r.f (r.i + 1) % 3 < 3 := Nat.mod_lt _ (by norm_num)
  have hj : r.f (r.i + 1 + 1) % 2 < 2 := Nat.mod_lt _ (by norm_num)
  generalize hA : r.f r.i % 3 = a at *
  generalize hB : r.f (r.i + 1) % 3 = b at *
  generalize hJ : r.f (r.i + 1 + 1) % 2 = j at *
  cases switch <;>
    interval_cases a <;> interval_cases b <;> interval_cases j <;>
      by_cases hS : hostStrategy = "random" <;> simp [hS]

/-- Witness for C8: the identity stream with the random host strategy and
switching: the round's host door differs from car and first choice, and the
win condition matches the first choice missing the car. -/
theorem c8_host_opens_distinct_door_witness :
    (simulateRound ("random") true (Rng.mk (fun n => n) 0)).host ≠
      (simulateRound ("random") true (Rng.mk (fun n => n) 0)).car ∧
    (simulateRound ("random") true (Rng.mk (fun n => n) 0)).host ≠
      (simulateRound ("random") true (Rng.mk (fun n => n) 0)).choice1 ∧
    ((simulateRound ("random") true (Rng.mk (fun n => n) 0)).win = true ↔
      (simulateRound ("random") true (Rng.mk (fun n => n) 0)).choice1 ≠
        (simulateRound ("random") true (Rng.mk (fun n => n) 0)).car) := by
  have h := c8_host_opens_distinct_door ("random") true (Rng.mk (fun n => n) 0)
  exact ⟨h.1, h.2.1, h.2.2.1 rfl⟩

/-! ### The event trace of `monty_hall.main` -/

theorem mainIter_events (seedFn : Int → Nat → Nat) (o : MOptions) :
    ∀ n r, (mainIter seedFn o n r).1 =
      (List.replicate n
        [Event.log LogKind.elapsed, Event.log LogKind.winrate]).flatten := by
  intro n
  induction n with
  | zero => intro r; rfl
  | succ n ih =>
    intro r
    rw [List.replicate_succ, List.flatten_cons]
    show Event.log LogKind.elapsed :: Event.log LogKind.winrate ::
      (mainIter seedFn o n _).1 = _
    rw [ih]
    rfl

theorem logKinds_flatten_pairs (n : Nat) :
    logKinds ((List.replicate n
        [Event.log LogKind.elapsed, Event.log LogKind.winrate]).flatten) =
      (List.replicate n [LogKind.elapsed, LogKind.winrate]).flatten := by
  induction n with
  | zero => rfl
  | succ n ih =>
    simp only [List.replicate_succ, List.flatten_cons, logKinds,
      List.filterMap_append, List.filterMap_cons, kindOf] at ih ⊢
    rw [ih]
    rfl

theorem length_flatten_pairs {γ : Type} (x y : γ) (n : Nat) :
    ((List.replicate n [x, y]).flatten).length = 2 * n := by
  induction n with
  | zero => rfl
  | succ n ih =>
    rw [List.replicate_succ, List.flatten_cons, List.length_append, ih]
    simp
    omega

theorem marker_not_in_loop (n : Nat) (nm : String) :
    Event.writeFile nm ∉ (List.replicate n
      [Event.log LogKind.elapsed, Event.log LogKind.winrate]).flatten := by
  intro h
  rw [List.mem_flatten] at h
  obtain ⟨l, hl, he⟩ := h
  rw [List.eq_of_mem_replicate hl] at he
  simp at he

theorem writes_of_loop (n : Nat) :
    ((List.replicate n
        [Event.log LogKind.elapsed, Event.log LogKind.winrate]).flatten).filterMap
      writeName = [] := by
  induction n with
  | zero => rfl
  | succ n ih =>
    simp only [List.replicate_succ, List.flatten_cons, List.filterMap_append,
      List.filterMap_cons, writeName, ih]
    rfl

theorem mainFiles_eq (seedFn : Int → Nat → Nat) (o : MOptions) (r : Rng) :
    mainFiles seedFn o r = ["options.txt", "wins.png"] := by
  rw [mainFiles, mainEvents, mainIter_events]
  cases o.showFig <;>
    simp [List.filterMap_cons, List.filterMap_append, writeName,
      writes_of_loop]

/-- C6: in every execution of `monty_hall.main`, the completion marker
`wins.png` is written only after the simulation loop has finished: the events
before the marker contain exactly the 4 header log lines followed by one
elapsed line and one win-rate line per simulation (`4 + 2·repeat` log lines
in all), the marker does not occur earlier, and no log line follows it — so a
directory holding the marker never holds a partially written log. -/
theorem c6_marker_only_after_full_log (seedFn : Int → Nat → Nat)
    (o : MOptions) (r : Rng) :
    ∃ pre post,
      mainEvents seedFn o r = pre ++ Event.writeFile ("wins.png") :: post ∧
      Event.writeFile ("wins.png") ∉ pre ∧
      logKinds pre =
        [LogKind.hnum, LogKind.hrepeat, LogKind.hswitch, LogKind.hhost] ++
          (List.replicate o.repeats.toNat
            [LogKind.elapsed, LogKind.winrate]).flatten ∧
      (logKinds pre).length = 4 + 2 * o.repeats.toNat ∧
      logKinds post = [] := by
  have hloop := mainIter_events seedFn o o.repeats.toNat r
  refine ⟨Event.writeFile ("options.txt") ::
    Event.log LogKind.hnum :: Event.log LogKind.hrepeat ::
    Event.log LogKind.hswitch :: Event.log LogKind.hhost ::
    (mainIter seedFn o o.repeats.toNat r).1,
    (if o.showFig then [Event.showFig] else []), rfl, ?_, ?_, ?_, ?_⟩
  · intro h
    rw [hloop] at h
    simp only [List.mem_cons] at h
    rcases h with h | h | h | h | h | h
    · exact absurd h (by decide)
    · exact absurd h (by decide)
    · exact absurd h (by decide)
    · exact absurd h (by decide)
    · exact absurd h (by decide)
    · exact marker_not_in_loop _ _ h
  · rw [hloop]
    simp only [logKinds, List.filterMap_cons, kindOf]
    have := logKinds_flatten_pairs o.repeats.toNat
    rw [logKinds] at this
    rw [this]
    rfl
  · rw [hloop]
    simp only [logKinds, List.filterMap_cons, kindOf]
    have := logKinds_flatten_pairs o.repeats.toNat
    rw [logKinds] at this
    rw [this]
    simp [length_flatten_pairs]
    omega
  · cases o.showFig <;> simp [logKinds, List.filterMap_cons, kindOf]

/-! ### The study grid and dispatch -/

/-- C1: the study declared by the test command (free axis
`--num=[100,1000]`, scalar `--repeat=5`, and `--switch` grouped with
`--seed`, each grouped axis of length 2) expands to exactly
`2 (free) × 2 (grouped) = 4` configurations; a full dispatch creates the 4
distinct ordinal-templated output directories and every run's file list
contains the completion marker `wins.png`. -/
theorem c1_study_grid_four_marked_runs :
    (mkGrid studyAxes studyGroupedKeys).length = 4 ∧
    studyDirs =
      [cl ("study/0"), cl ("study/1"), cl ("study/2"), cl ("study/3")] ∧
    studyDirs.Nodup ∧
    (∀ seedFn r, (dispatchStudy seedFn r).length = 4 ∧
      (dispatchStudy seedFn r).all
        (fun p => p.2.contains ("wins.png")) = true) := by
  refine ⟨by decide, by decide, by decide, ?_⟩
  intro seedFn r
  constructor
  · have h4 : (mkGrid studyAxes studyGroupedKeys).length = 4 := by decide
    simp [dispatchStudy, h4]
  · rw [List.all_eq_true]
    intro p hp
    simp only [dispatchStudy, List.mem_map] at hp
    obtain ⟨q, _, rfl⟩ := hp
    rw [mainFiles_eq]
    rfl

/-! ### `scrape_output` -/

theorem skipN_drop {α : Type} :
    ∀ (n : Nat) (fd : List α), n ≤ fd.length →
      skipN n fd = Except.ok (fd.drop n) := by
  intro n
  induction n with
  | zero => intro fd _; rfl
  | succ n ih =>
    intro fd h
    cases fd with
    | nil => simp at h
    | cons x fd =>
      rw [List.drop_succ_cons]
      rw [skipN, pyNext]
      exact ih fd (by simpa using h)

theorem scrapeLoop_spec {F : Type} (pyfloat : String → Option F) :
    ∀ (n : Nat) (fd : List (List String)), 2 * n ≤ fd.length →
    (∀ i, i < 2 * n →
      ∃ v, ((fd[i]?).getD []).getLast?.bind pyfloat = some v) →
    ∃ es ws, scrapeLoop pyfloat n fd = Except.ok (es, ws) ∧
      es.length = n ∧ ws.length = n ∧
      ∀ i, i < n →
        es[i]? = ((fd[2 * i]?).getD []).getLast?.bind pyfloat ∧
        ws[i]? = ((fd[2 * i + 1]?).getD []).getLast?.bind pyfloat := by
  intro n
  induction n with
  | zero =>
    intro fd _ _
    exact ⟨[], [], rfl, rfl, rfl, fun i hi => absurd hi (Nat.not_lt_zero _)⟩
  | succ n ih =>
    intro fd hlen hp
    match fd with
    | [] => simp only [List.length_nil] at hlen; omega
    | [l] => simp only [List.length_cons, List.length_nil] at hlen; omega
    | l1 :: l2 :: fd' =>
      obtain ⟨v1, hv1⟩ := hp 0 (by omega)
      obtain ⟨v2, hv2⟩ := hp 1 (by omega)
      simp only [List.getElem?_cons_zero, List.getElem?_cons_succ,
        Option.getD_some] at hv1 hv2
      obtain ⟨tok1, htok1, hpf1⟩ := Option.bind_eq_some.mp hv1
      obtain ⟨tok2, htok2, hpf2⟩ := Option.bind_eq_some.mp hv2
      obtain ⟨es, ws, hok, hel, hwl, hidx⟩ := ih fd'
        (by simp only [List.length_cons] at hlen; omega)
        (fun i hi => by
          have h := hp (i + 2) (by omega)
          simpa only [List.getElem?_cons_succ] using h)
      refine ⟨v1 :: es, v2 :: ws, ?_, by simp [hel], by simp [hwl], ?_⟩
      · simp only [scrapeLoop, pyNext, htok1, hpf1, htok2, hpf2, hok]
      · intro i hi
        cases i with
        | zero => refine ⟨?_, ?_⟩ <;> simp [hv1, hv2]
        | succ i =>
          have e2 : 2 * (i + 1) + 1 = 2 * i + 1 + 1 + 1 := by ring
          have e1 : 2 * (i + 1) = 2 * i + 1 + 1 := by ring
          rw [e2, e1]
          simp only [List.getElem?_cons_succ]
          exact hidx i (by omega)

/-- C5: for every partial record holding an integer field `repeat = r ≥ 0`
and every log with at least `4 + 2r` lines whose data lines end in parseable
numeric tokens, `scrape_output` succeeds with exactly the keys `elapsed` and
`win_rate`, each an array of length `r` whose `i`-th entries are the last
tokens of (1-based) lines `5+2i` and `6+2i` parsed by `float`; and
`get_scoop_info` registers the `options.txt` parser before `scrape_output`,
so the `repeat` field is available when `scrape_output` runs. -/
theorem c5_scrape_output_arrays {F : Type} (pyfloat : String → Option F)
    (lines : List (List String)) (rd : List (String × Int)) (r : Int)
    (hr : storeLookup rd ("repeat") = some r) (hr0 : 0 ≤ r)
    (hlen : 4 + 2 * r.toNat ≤ lines.length)
    (hparse : ∀ i, i < 2 * r.toNat →
      ∃ v, ((lines[4 + i]?).getD []).getLast?.bind pyfloat = some v) :
    (∃ es ws, scrape_output pyfloat lines (some rd) =
        Except.ok [("elapsed", es), ("win_rate", ws)] ∧
      es.length = r.toNat ∧ ws.length = r.toNat ∧
      ∀ i, i < r.toNat →
        es[i]? = ((lines[4 + 2 * i]?).getD []).getLast?.bind pyfloat ∧
        ws[i]? = ((lines[4 + 2 * i + 1]?).getD []).getLast?.bind pyfloat) ∧
    get_scoop_info = [("options.txt", ScoopParserId.loadSplitOptions),
                      ("output_log.txt", ScoopParserId.scrapeOutput)] := by
  refine ⟨?_, rfl⟩
  have hskip : skipN 4 lines = Except.ok (lines.drop 4) :=
    skipN_drop 4 lines (by omega)
  obtain ⟨es, ws, hok, hel, hwl, hidx⟩ := scrapeLoop_spec pyfloat r.toNat
    (lines.drop 4)
    (by rw [List.length_drop]; omega)
    (fun i hi => by
      obtain ⟨v, hv⟩ := hparse i hi
      exact ⟨v, by rw [List.getElem?_drop]; exact hv⟩)
  refine ⟨es, ws, ?_, hel, hwl, fun i hi => ?_⟩
  · simp only [scrape_output, hr, hskip, hok]
  · obtain ⟨h1, h2⟩ := hidx i hi
    constructor
    · rw [h1, List.getElem?_drop]
    · rw [h2, List.getElem?_drop,
        show 4 + (2 * i + 1) = 4 + 2 * i + 1 from by ring]

/-- Witness for C5: the sample log with `repeat = 2` scrapes into two
two-element arrays under the keys `elapsed` and `win_rate`. -/
theorem c5_scrape_output_arrays_witness :
    storeLookup [("repeat", (2 : Int))] "repeat" = some 2 ∧
    (0 : Int) ≤ 2 ∧ 4 + 2 * (2 : Int).toNat ≤ sampleLog.length ∧
    (∃ es ws,
      scrape_output tokNat sampleLog
          (some [("repeat", (2 : Int))]) =
        Except.ok [("elapsed", es), ("win_rate", ws)] ∧
      es.length = (2 : Int).toNat ∧ ws.length = (2 : Int).toNat) := by
  have h := c5_scrape_output_arrays tokNat sampleLog
    [("repeat", (2 : Int))] 2 rfl (by norm_num) (by decide)
    (by
      intro i hi
      replace hi : i < 4 := by simpa using hi
      interval_cases i
      · exact ⟨1, by decide⟩
      · exact ⟨2, by decide⟩
      · exact ⟨3, by decide⟩
      · exact ⟨4, by decide⟩)
  obtain ⟨⟨es, ws, hok, hel, hwl, _⟩, _⟩ := h
  exact ⟨rfl, by norm_num, by decide, es, ws, hok, hel, hwl⟩

/-! ### Line splitting and stripping -/

theorem lineSplit_line (a : Chars) (rest : Chars) (h : '\n' ∉ a) :
    lineSplit (a ++ '\n' :: rest) = a :: lineSplit rest := by
  induction a with
  | nil =>
    show lineSplit ('\n' :: rest) = [] :: lineSplit rest
    rw [lineSplit]
    simp
  | cons c a ih =>
    have hc : ¬ ((c == '\n') = true) := by
      simp only [beq_iff_eq]
      exact fun e => h (e ▸ List.mem_cons_self c a)
    rw [List.cons_append, lineSplit, if_neg hc,
      ih (fun hm => h (List.mem_cons_of_mem c hm))]

theorem lineSplit_newline (rest : Chars) :
    lineSplit ('\n' :: rest) = [] :: lineSplit rest := by
  have := lineSplit_line [] rest (by simp)
  simpa using this

theorem splitOnChar_split (sep : Char) (k rest : Chars) (h : sep ∉ k) :
    splitOnChar sep (k ++ sep :: rest) = k :: splitOnChar sep rest := by
  induction k with
  | nil =>
    show splitOnChar sep (sep :: rest) = [] :: splitOnChar sep rest
    rw [splitOnChar]
    simp
  | cons c k ih =>
    have hc : ¬ ((c == sep) = true) := by
      simp only [beq_iff_eq]
      exact fun e => h (e ▸ List.mem_cons_self c k)
    rw [List.cons_append, splitOnChar, if_neg hc,
      ih (fun hm => h (List.mem_cons_of_mem c hm))]

theorem splitOnChar_none (sep : Char) (s : Chars) (h : sep ∉ s) :
    splitOnChar sep s = [s] := by
  induction s with
  | nil => rfl
  | cons c s ih =>
    have hc : ¬ ((c == sep) = true) := by
      simp only [beq_iff_eq]
      exact fun e => h (e ▸ List.mem_cons_self c s)
    rw [splitOnChar, if_neg hc, ih (fun hm => h (List.mem_cons_of_mem c hm))]

theorem dropWhile_noLead (k z : Chars) (h : noLeadWs k = true) :
    (k ++ z).dropWhile pyWs = k ++ z := by
  cases k with
  | nil => simp [noLeadWs] at h
  | cons c k =>
    rw [noLeadWs, Bool.not_eq_true'] at h
    rw [List.cons_append, List.dropWhile_cons_of_neg (by simp [h])]

theorem dropWhile_fix (k : Chars) (h : noLeadWs k = true) :
    k.dropWhile pyWs = k := by
  have := dropWhile_noLead k [] h
  simpa using this

theorem pyStripR_fix (k : Chars) (h : noTrailWs k = true) :
    pyStripR k = k := by
  rw [pyStripR, dropWhile_fix _ h, List.reverse_reverse]

theorem pyStrip_fix (k : Chars) (h1 : noLeadWs k = true)
    (h2 : noTrailWs k = true) : pyStrip k = k := by
  rw [pyStrip, dropWhile_fix _ h1, pyStripR_fix _ h2]

theorem pyStripR_mid (k w : Chars) (c0 : Char) (h : pyWs c0 = false) :
    pyStripR (k ++ c0 :: w) = k ++ c0 :: pyStripR w := by
  rw [pyStripR, List.reverse_append, List.reverse_cons, List.append_assoc,
    List.singleton_append, List.dropWhile_append]
  by_cases he : ((w.reverse.dropWhile pyWs).isEmpty = true)
  · rw [if_pos he]
    rw [List.dropWhile_cons_of_neg (by simp [h])]
    rw [List.isEmpty_iff] at he
    rw [pyStripR, he, List.reverse_cons, List.reverse_reverse]
    rfl
  · rw [if_neg he]
    rw [List.reverse_append, List.reverse_cons, List.reverse_reverse,
      pyStripR, List.append_assoc, List.singleton_append]

theorem noLeadWs_of_nonws (s : Chars) (hne : s ≠ [])
    (hnws : ∀ c ∈ s, pyWs c = false) : noLeadWs s = true := by
  cases s with
  | nil => exact absurd rfl hne
  | cons c s =>
    rw [noLeadWs, Bool.not_eq_true']
    exact hnws c (List.mem_cons_self c s)

theorem noTrailWs_of_nonws (s : Chars) (hne : s ≠ [])
    (hnws : ∀ c ∈ s, pyWs c = false) : noTrailWs s = true := by
  rw [noTrailWs]
  refine noLeadWs_of_nonws s.reverse ?_ ?_
  · simpa using hne
  · intro c hc
    exact hnws c (List.mem_reverse.mp hc)

theorem pyStripR_cons_ws (s : Chars) (hne : s ≠ [])
    (hnws : ∀ c ∈ s, pyWs c = false) : pyStripR (' ' :: s) = ' ' :: s := by
  rw [pyStripR, List.reverse_cons, dropWhile_noLead _ _ ?_, List.reverse_append,
    List.reverse_reverse]
  · rfl
  · exact noLeadWs_of_nonws s.reverse (by simpa using hne)
      (fun c hc => hnws c (List.mem_reverse.mp hc))

theorem pyStrip_cons_ws (s : Chars) (hne : s ≠ [])
    (hnws : ∀ c ∈ s, pyWs c = false) : pyStrip (' ' :: s) = s := by
  rw [pyStrip, List.dropWhile_cons_of_pos (by decide),
    dropWhile_fix _ (noLeadWs_of_nonws s hne hnws),
    pyStripR_fix _ (noTrailWs_of_nonws s hne hnws)]

/-! ### Integer-literal character facts -/

theorem digitBody_mem (d : Chars) (h : isDigitBody d = true) :
    ∀ c ∈ d, isDigitCh c = true := by
  cases d with
  | nil => simp [isDigitBody] at h
  | cons c d =>
    cases d with
    | nil =>
      intro x hx
      rw [List.mem_singleton] at hx
      subst hx
      simpa [isDigitBody] using h
    | cons c2 d2 =>
      rw [show isDigitBody (c :: c2 :: d2) =
            (isDigitCh c && decide (c ≠ '0') && (c2 :: d2).all isDigitCh)
          from rfl,
        Bool.and_eq_true, Bool.and_eq_true] at h
      obtain ⟨⟨h1, _⟩, h3⟩ := h
      rw [List.all_eq_true] at h3
      intro x hx
      rcases List.mem_cons.mp hx with rfl | hx2
      · exact h1
      · exact h3 x hx2

theorem isIntLit_chars (s : Chars) (h : isIntLit s = true) :
    ∀ c ∈ s, c = '-' ∨ isDigitCh c = true := by
  unfold isIntLit at h
  split at h
  · intro c hc
    rcases List.mem_cons.mp hc with rfl | hmem
    · exact Or.inl rfl
    · exact Or.inr (digitBody_mem _ h c hmem)
  · intro c hc
    exact Or.inr (digitBody_mem _ h c hc)

theorem digit_not_ws (c : Char) (h : isDigitCh c = true) : pyWs c = false := by
  have h1 : c ≠ ' ' := fun e => by subst e; exact absurd h (by decide)
  have h2 : c ≠ '\t' := fun e => by subst e; exact absurd h (by decide)
  have h3 : c ≠ '\n' := fun e => by subst e; exact absurd h (by decide)
  have h4 : c ≠ '\r' := fun e => by subst e; exact absurd h (by decide)
  simp [pyWs, h1, h2, h3, h4]

theorem intlit_not_ws (s : Chars) (h : isIntLit s = true) :
    ∀ c ∈ s, pyWs c = false := by
  intro c hc
  rcases isIntLit_chars s h c hc with rfl | hd
  · decide
  · exact digit_not_ws c hd

theorem intlit_no_colon (s : Chars) (h : isIntLit s = true) : ':' ∉ s := by
  intro hc
  rcases isIntLit_chars s h ':' hc with he | hd
  · exact absurd he (by decide)
  · exact absurd hd (by decide)

theorem intlit_no_eqsign (s : Chars) (h : isIntLit s = true) :
    ('=' : Char) ∉ s := by
  intro hc
  rcases isIntLit_chars s h '=' hc with he | hd
  · exact absurd he (by decide)
  · exact absurd hd (by decide)

theorem intlit_ne_nil (s : Chars) (h : isIntLit s = true) : s ≠ [] := by
  intro e
  rw [e] at h
  exact absurd h (by decide)

theorem contains_eq_false_of_not_mem (s : Chars) (c : Char) (h : c ∉ s) :
    s.contains c = false := by
  rw [List.contains_eq_any_beq, List.any_eq_false]
  intro x hx
  simp only [beq_iff_eq]
  exact fun e => h (e ▸ hx)

theorem loadedVal_roundtrip (v : PVal) (h : pyEval (pyStr v) = some v) :
    loadedVal v = v := by
  rw [pyEval] at h
  by_cases hi : isIntLit (pyStr v) = true
  · rw [if_pos hi] at h
    have hnws := intlit_not_ws _ hi
    have hne := intlit_ne_nil _ hi
    rw [loadedVal, pyStripR_cons_ws _ hne hnws,
      splitOnChar_none ':' _ ?_, List.map_singleton,
      pyStrip_cons_ws _ hne hnws]
    · show parseVal (pyStr v) = v
      rw [parseVal, parse_as_dict,
        contains_eq_false_of_not_mem _ _ (intlit_no_eqsign _ hi)]
      simp only [Bool.false_eq_true, if_false]
      rw [pyEval, if_pos hi, h]
    · intro hc
      rcases List.mem_cons.mp hc with he | hmem
      · exact absurd he (by decide)
      · exact intlit_no_colon _ hi hmem
  · rw [if_neg hi] at h
    exact absurd h (by simp)

/-! ### One option line through strip and parse -/

theorem loadLine_strip (k : Chars) (v : PVal)
    (hk1 : noLeadWs k = true) (hk2 : noTrailWs k = true) (hk3 : ':' ∉ k) :
    loadLine (pyStrip (rawLine (k, v))) = (k, loadedVal v) := by
  have e1 : pyStrip (rawLine (k, v)) =
      k ++ ':' :: pyStripR (' ' :: pyStr v) := by
    rw [rawLine, pyStrip, dropWhile_noLead k _ hk1,
      pyStripR_mid k _ ':' (by decide)]
  rw [e1, loadLine, splitOnChar_split ':' k _ hk3]
  simp only [List.headD_cons, List.drop_succ_cons, List.drop_zero]
  rw [pyStrip_fix k hk1 hk2, loadedVal]

theorem lineSplit_optLines :
    ∀ (opts : List (Chars × PVal)),
    (∀ kv ∈ opts, '\n' ∉ kv.1) → (∀ kv ∈ opts, '\n' ∉ pyStr kv.2) →
    lineSplit (opts.foldr (fun kv acc' => optLine kv.1 kv.2 ++ acc') []) =
      opts.map rawLine := by
  intro opts
  induction opts with
  | nil => intro _ _; rfl
  | cons kv opts ih =>
    intro hk hv
    rw [List.foldr_cons, optLine, List.append_assoc, List.singleton_append]
    rw [lineSplit_line (rawLine (kv.1, kv.2)) _ ?_]
    · rw [ih (fun q hq => hk q (List.mem_cons_of_mem kv hq))
          (fun q hq => hv q (List.mem_cons_of_mem kv hq))]
      rfl
    · intro hm
      rw [rawLine] at hm
      rcases List.mem_append.mp hm with hm1 | hm2
      · exact hk kv (List.mem_cons_self kv opts) hm1
      · rcases List.mem_cons.mp hm2 with he | hm3
        · exact absurd he (by decide)
        · rcases List.mem_cons.mp hm3 with he | hm4
          · exact absurd he (by decide)
          · exact hv kv (List.mem_cons_self kv opts) hm4

theorem lineSplit_save (argv name : Chars) (opts : List (Chars × PVal))
    (hargv : '\n' ∉ argv) (hname : '\n' ∉ name)
    (hk : ∀ kv ∈ opts, '\n' ∉ kv.1)
    (hv : ∀ kv ∈ opts, '\n' ∉ pyStr kv.2) :
    lineSplit (save_options argv [(name, opts)]) =
      [cl ("command line"), cl ("------------"), [], argv, [], name,
       dashesOf name, []] ++ opts.map rawLine := by
  have hdash : '\n' ∉ dashesOf name := by
    intro hm
    have := List.eq_of_mem_replicate hm
    simp at this
  rw [save_options]
  rw [show (cl ("command line\n") : Chars) ++
        (cl ("------------\n\n") ++ (argv ++ '\n' ::
          [((name, opts) : Chars × List (Chars × PVal))].foldr
            (fun g acc =>
              '\n' :: (g.1 ++ '\n' :: (dashesOf g.1 ++ '\n' :: '\n' ::
                ((g.2.foldr (fun kv acc' => optLine kv.1 kv.2 ++ acc') []) ++
                  acc))))
            [])) =
      cl ("command line") ++ '\n' ::
        (cl ("------------") ++ '\n' :: '\n' ::
          (argv ++ '\n' ::
            ('\n' :: (name ++ '\n' :: (dashesOf name ++ '\n' :: '\n' ::
              ((opts.foldr (fun kv acc' => optLine kv.1 kv.2 ++ acc') []) ++
                []))))))
      from rfl]
  rw [lineSplit_line _ _ (by decide)]
  rw [lineSplit_line _ _ (by decide)]
  rw [lineSplit_newline]
  rw [lineSplit_line _ _ hargv]
  rw [lineSplit_newline]
  rw [lineSplit_line _ _ hname]
  rw [lineSplit_line _ _ hdash]
  rw [lineSplit_newline]
  rw [List.append_nil]
  rw [lineSplit_optLines opts hk hv]
  rfl

/-! ### Dict folding and the round trip -/

theorem not_mem_of_contains_false (s : Chars) (c : Char)
    (h : s.contains c = false) : c ∉ s := by
  intro hm
  rw [List.contains_eq_any_beq, List.any_eq_false] at h
  have := h c hm
  simp at this

theorem dictSet_fresh (m : List (Chars × PVal)) (k : Chars) (v : PVal)
    (h : ∀ q ∈ m, q.1 ≠ k) : dictSet m k v = m ++ [(k, v)] := by
  induction m with
  | nil => rfl
  | cons q m ih =>
    rw [dictSet, if_neg (h q (List.mem_cons_self q m)),
      ih (fun q' hq' => h q' (List.mem_cons_of_mem q hq')), List.cons_append]

theorem loadLine_strip_fst (kv : Chars × PVal)
    (hk1 : noLeadWs kv.1 = true) (hk2 : noTrailWs kv.1 = true)
    (hk3 : ':' ∉ kv.1) :
    (loadLine (pyStrip (rawLine kv))).1 = kv.1 := by
  rw [show rawLine kv = rawLine (kv.1, kv.2) from rfl,
    loadLine_strip kv.1 kv.2 hk1 hk2 hk3]

theorem loadLine_strip_snd (kv : Chars × PVal)
    (hk1 : noLeadWs kv.1 = true) (hk2 : noTrailWs kv.1 = true)
    (hk3 : ':' ∉ kv.1) :
    (loadLine (pyStrip (rawLine kv))).2 = loadedVal kv.2 := by
  rw [show rawLine kv = rawLine (kv.1, kv.2) from rfl,
    loadLine_strip kv.1 kv.2 hk1 hk2 hk3]

theorem keyOK_split (k : Chars) (h : keyOK k = true) :
    noLeadWs k = true ∧ noTrailWs k = true ∧ ':' ∉ k ∧ '\n' ∉ k := by
  rw [keyOK, Bool.and_eq_true, Bool.and_eq_true, Bool.and_eq_true] at h
  obtain ⟨⟨⟨h1, h2⟩, h3⟩, h4⟩ := h
  rw [Bool.not_eq_true'] at h3 h4
  exact ⟨h1, h2, not_mem_of_contains_false _ _ h3,
    not_mem_of_contains_false _ _ h4⟩

theorem foldl_loadLines :
    ∀ (opts : List (Chars × PVal)) (m : List (Chars × PVal)),
    (∀ kv ∈ opts, keyOK kv.1 = true) →
    (opts.map Prod.fst).Nodup →
    (∀ kv ∈ opts, ∀ q ∈ m, q.1 ≠ kv.1) →
    opts.foldl
      (fun m' kv => dictSet m' (loadLine (pyStrip (rawLine kv))).1
        (loadLine (pyStrip (rawLine kv))).2) m =
      m ++ opts.map (fun kv => (kv.1, loadedVal kv.2)) := by
  intro opts
  induction opts with
  | nil => intro m _ _ _; simp
  | cons kv opts ih =>
    intro m hks hnd hfresh
    obtain ⟨h1, h2, hk3, _⟩ := keyOK_split kv.1
      (hks kv (List.mem_cons_self kv opts))
    rw [List.map_cons, List.nodup_cons] at hnd
    obtain ⟨hnotin, hnd'⟩ := hnd
    rw [List.foldl_cons, loadLine_strip_fst kv h1 h2 hk3,
      loadLine_strip_snd kv h1 h2 hk3,
      dictSet_fresh m kv.1 _
        (fun q hq => hfresh kv (List.mem_cons_self kv opts) q hq),
      ih (m ++ [(kv.1, loadedVal kv.2)])
        (fun q hq => hks q (List.mem_cons_of_mem kv hq)) hnd' ?_,
      List.append_assoc, List.singleton_append, List.map_cons]
    intro kv' hkv' q hq
    rcases List.mem_append.mp hq with hqm | hqs
    · exact hfresh kv' (List.mem_cons_of_mem kv hkv') q hqm
    · rw [List.mem_singleton] at hqs
      subst hqs
      intro e
      exact hnotin (e ▸ List.mem_map_of_mem Prod.fst hkv')

theorem lookupK_map (f : PVal → PVal) :
    ∀ (opts : List (Chars × PVal)) (k : Chars) (v : PVal),
    (opts.map Prod.fst).Nodup → (k, v) ∈ opts →
    lookupK (opts.map (fun kv => (kv.1, f kv.2))) k = some (f v) := by
  intro opts
  induction opts with
  | nil => intro k v _ hm; simp at hm
  | cons q opts ih =>
    intro k v hnd hm
    rw [List.map_cons, List.nodup_cons] at hnd
    obtain ⟨hq, hnd'⟩ := hnd
    simp only [List.map_cons, lookupK]
    rcases List.mem_cons.mp hm with he | hmem
    · rw [← he]
      simp
    · have hne : q.1 ≠ k := by
        intro e
        exact hq (e ▸ List.mem_map_of_mem Prod.fst hmem)
      rw [if_neg hne]
      exact ih k v hnd' hmem

/-- C10 (counterexample): the claim fails for a key with leading whitespace.
With the single-group save of `{" a" : 1}` (key nonempty, containing neither
`':'` nor a newline, value an int), `load_options` strips the line, so the
returned mapping's key is `"a"`, not `" a"` — the key set is not preserved as
claimed. -/
theorem c10_counterexample_padded_key :
    (load_options (save_options (cl ("cmd"))
        [(cl ("options"), [(cl (" a"), PVal.int 1)])])).map Prod.fst =
      [cl ("a")] ∧ (cl ("a") : Chars) ≠ cl (" a") := by
  constructor
  · decide
  · decide

/-- C10 (amended): for every group name and `argv` line without newlines and
every options mapping whose keys are nonempty, contain neither `':'` nor
newlines, **and carry no leading or trailing whitespace**, and whose values
stringify to a single line, `load_options` after `save_options` (default
arguments: command line saved unquoted; the hard-coded skip of 8 lines
exactly covers the command-line block and the single group header) returns a
mapping with exactly the keys of `opts`, and every value `v` with
`eval(str(v)) = v` (e.g. ints) is recovered equal to `v`. -/
theorem c10_save_load_options_roundtrip (argv name : Chars)
    (opts : List (Chars × PVal))
    (hargv : '\n' ∉ argv) (hname : '\n' ∉ name)
    (hkeys : ∀ kv ∈ opts, keyOK kv.1 = true)
    (hvals : ∀ kv ∈ opts, '\n' ∉ pyStr kv.2)
    (hnodup : (opts.map Prod.fst).Nodup) :
    (load_options (save_options argv [(name, opts)])).map Prod.fst =
      opts.map Prod.fst ∧
    ∀ kv ∈ opts, pyEval (pyStr kv.2) = some kv.2 →
      lookupK (load_options (save_options argv [(name, opts)])) kv.1 =
        some kv.2 := by
  have hk' : ∀ kv ∈ opts, '\n' ∉ kv.1 :=
    fun kv hkv => (keyOK_split kv.1 (hkeys kv hkv)).2.2.2
  have hload : load_options (save_options argv [(name, opts)]) =
      opts.map (fun kv => (kv.1, loadedVal kv.2)) := by
    rw [load_options, lineSplit_save argv name opts hargv hname hk' hvals]
    rw [show ([cl ("command line"), cl ("------------"), [], argv, [], name,
          dashesOf name, []] ++ opts.map rawLine).drop 8 = opts.map rawLine
        from rfl]
    rw [List.foldl_map, List.foldl_map]
    exact foldl_loadLines opts [] hkeys hnodup (by simp)
  constructor
  · rw [hload, List.map_map]
    rfl
  · intro kv hkv hev
    rw [hload, lookupK_map loadedVal opts kv.1 kv.2 hnodup hkv,
      loadedVal_roundtrip kv.2 hev]

/-- Witness for C10 (amended): the single group `options` with mapping
`{"a" : 5}` round-trips — the loaded key list is `["a"]` and the int value 5
is recovered. -/
theorem c10_save_load_options_roundtrip_witness :
    (load_options (save_options (cl ("cmd"))
        [(cl ("options"), [(cl ("a"), PVal.int 5)])])).map Prod.fst =
      [cl ("a")] ∧
    lookupK (load_options (save_options (cl ("cmd"))
        [(cl ("options"), [(cl ("a"), PVal.int 5)])])) (cl ("a")) =
      some (PVal.int 5) := by
  have h := c10_save_load_options_roundtrip (cl ("cmd")) (cl ("options"))
    [(cl ("a"), PVal.int 5)] (by decide) (by decide)
    (by intro kv hkv; rw [List.mem_singleton] at hkv; subst hkv; decide)
    (by intro kv hkv; rw [List.mem_singleton] at hkv; subst hkv; decide)
    (by decide)
  refine ⟨by simpa using h.1, ?_⟩
  exact h.2 (cl ("a"), PVal.int 5) (List.mem_singleton.mpr rfl) (by decide)

end Soops
